import Mathlib

/-!
# Verification of the World of Bits world-state engine

Shallow embedding of the game logic of `src/main.ts` (D3.d variant):
coordinate mapper, deterministic token spawn, cell-memory store,
pickup/merge click state machine, movement-system facade, and the
geolocation movement controller.  Real-number positions and the hash
output are modelled as rationals; token values as naturals; cell
coordinates as integer pairs.
-/

namespace WorldOfBits

/-! ## Constants (section 1 of the source) -/

/-- `WORLD_ORIGIN.lat = 34.0522`. -/
def ORIGIN_LAT : ℚ := 340522/10000

/-- `WORLD_ORIGIN.lng = -118.2437`. -/
def ORIGIN_LNG : ℚ := -1182437/10000

/-- `TILE_DEGREES = 0.0001`. -/
def TILE_DEGREES : ℚ := 1/10000

/-- `NEIGHBORHOOD_SIZE = 10`. -/
def NEIGHBORHOOD_SIZE : ℤ := 10

/-- `INTERACTION_RANGE = 3`. -/
def INTERACTION_RANGE : ℤ := 3

/-- `TARGET_VALUE = 32`. -/
def TARGET_VALUE : ℕ := 32

/-! ## Coordinate mapper (section 8 of the source) -/

/-- `toCell(lat, lng)`: floor of the offset from the origin divided by the
tile size, independently per axis. -/
def toCell (lat lng : ℚ) : ℤ × ℤ :=
  (⌊(lat - ORIGIN_LAT) / TILE_DEGREES⌋, ⌊(lng - ORIGIN_LNG) / TILE_DEGREES⌋)

/-- `fromCell(i, j)`: the south-west and north-east corners of cell `(i, j)`,
exactly as computed in the source (`lat`, `lng`, `lat2`, `lng2`). -/
def fromCell (i j : ℤ) : (ℚ × ℚ) × (ℚ × ℚ) :=
  ((ORIGIN_LAT + i * TILE_DEGREES, ORIGIN_LNG + j * TILE_DEGREES),
   (ORIGIN_LAT + (i + 1) * TILE_DEGREES, ORIGIN_LNG + (j + 1) * TILE_DEGREES))

/-- Containment in the rectangle returned by `fromCell`, half-open at the
upper edge (the spec's reading of the bounds). -/
def inBounds (i j : ℤ) (lat lng : ℚ) : Prop :=
  (fromCell i j).1.1 ≤ lat ∧ lat < (fromCell i j).2.1 ∧
  (fromCell i j).1.2 ≤ lng ∧ lng < (fromCell i j).2.2

/-- `distance(a, b)`: Chebyshev distance `max(|a.i-b.i|, |a.j-b.j|)`. -/
def distance (a b : ℤ × ℤ) : ℤ :=
  max |a.1 - b.1| |a.2 - b.2|

/-! ## Deterministic token spawn (section 9 of the source)

`luck` (`src/_luck.ts`, not part of the provided sources) is a pure hash
from the cell coordinate to a value in `[0,1)`; modelled from the spec as
an arbitrary function `ℤ → ℤ → ℚ` supplied as a parameter, so every
result below holds for the real hash. -/

/-- `spawnValue(i, j)`: maps the hash value `r = luck(i, j)` through the
cumulative bands `r<0.1→1, r<0.18→2, r<0.22→4, r<0.24→8, r<0.245→16,
else none`. -/
def spawnValue (luck : ℤ → ℤ → ℚ) (i j : ℤ) : Option ℕ :=
  if luck i j < 1/10 then some 1
  else if luck i j < 18/100 then some 2
  else if luck i j < 22/100 then some 4
  else if luck i j < 24/100 then some 8
  else if luck i j < 245/1000 then some 16
  else none

/-! ## Cell memory and game state (sections 6, 7, 11 of the source) -/

/-- `CellState` of section 7: stored token value (possibly none) and the
collected flag. -/
structure CellState where
  value : Option ℕ
  collected : Bool
deriving DecidableEq, Repr

/-- `cellMemory`: mapping from cell coordinate to an optional stored state
(`Record<string, CellState>`; the key `"i,j"` is in bijection with the
coordinate pair). -/
def Mem := ℤ × ℤ → Option CellState

/-- The whole mutable game state: `playerCell`, `heldToken`, `cellMemory`
and the `localStorage` snapshot `"worldState"`. -/
structure GameState where
  player : ℤ × ℤ
  held : Option ℕ
  mem : Mem
  snapshot : Option Mem

/-- Store lookup with Spawn-Function fallback: what `drawGrid` displays for
a cell, and the spec's `get` (section 4.3) without the caching write. -/
def resolveCell (luck : ℤ → ℤ → ℚ) (mem : Mem) (c : ℤ × ℤ) : CellState :=
  match mem c with
  | some st => st
  | none => ⟨spawnValue luck c.1 c.2, false⟩

/-- Whether the store records the cell as collected. -/
def isCollected (mem : Mem) (c : ℤ × ℤ) : Bool :=
  match mem c with
  | some st => st.collected
  | none => false

/-- `drawGrid`'s effect on the store: every cell of the neighborhood window
around the player that is absent from memory is materialized as
`{ value: spawnValue(i,j), collected: false }` (lines 320–326). -/
def drawGrid (luck : ℤ → ℤ → ℚ) (s : GameState) : GameState :=
  { s with mem := fun c =>
      match s.mem c with
      | some st => some st
      | none =>
          if distance s.player c ≤ NEIGHBORHOOD_SIZE then
            some ⟨spawnValue luck c.1 c.2, false⟩
          else none }

/-- The token value rendered at cell `c` (a rect/marker with a click
handler exists exactly when this is `some`): the cell lies in the drawn
window, is not collected, and its resolved value is not none. -/
def renderedValue (luck : ℤ → ℤ → ℚ) (s : GameState) (c : ℤ × ℤ) : Option ℕ :=
  if distance s.player c > NEIGHBORHOOD_SIZE then none
  else
    let st := resolveCell luck s.mem c
    if st.collected then none
    else st.value

/-- Signals observable from a click: the too-far alert, the mismatch alert,
silence on a cell with no token layer, and the two successful updates. -/
inductive Signal where
  | outOfRange
  | emptyCell
  | picked
  | merged
  | valueMismatch
deriving DecidableEq, Repr

/-- The mutation shared by pickup and merge (lines 358–372): record the
cell as collected with its frozen value, set the held token, persist the
snapshot, and redraw. -/
def collectAt (luck : ℤ → ℤ → ℚ) (s : GameState) (c : ℤ × ℤ)
    (w newHeld : ℕ) : GameState :=
  let mem' : Mem := fun c' => if c' = c then some ⟨some w, true⟩ else s.mem c'
  drawGrid luck { s with held := some newHeld, mem := mem', snapshot := some mem' }

/-- A click interaction on cell `c`: if no token layer is rendered there the
click does nothing (the spec's empty-cell rejection); otherwise
`handleClick` (lines 353–375) runs: range check first, then pickup, merge,
or the mismatch alert. -/
def handleClick (luck : ℤ → ℤ → ℚ) (s : GameState) (c : ℤ × ℤ) :
    GameState × Signal :=
  match renderedValue luck s c with
  | none => (s, Signal.emptyCell)
  | some w =>
      if distance s.player c > INTERACTION_RANGE then (s, Signal.outOfRange)
      else
        match s.held with
        | none => (collectAt luck s c w w, Signal.picked)
        | some v =>
            if v = w then (collectAt luck s c w (2 * v), Signal.merged)
            else (s, Signal.valueMismatch)

/-- `movePlayer(di, dj)` (lines 448–458): shift the player cell and redraw. -/
def movePlayer (luck : ℤ → ℤ → ℚ) (s : GameState) (di dj : ℤ) : GameState :=
  drawGrid luck { s with player := (s.player.1 + di, s.player.2 + dj) }

/-- The reset button handler (lines 394–402): clear the held token, delete
the persisted snapshot, empty the cell store, and redraw. -/
def resetGame (luck : ℤ → ℤ → ℚ) (s : GameState) : GameState :=
  drawGrid luck { player := s.player, held := none, mem := fun _ => none, snapshot := none }

/-- Discrete events driving the world state. -/
inductive Event where
  | move (di dj : ℤ)
  | click (c : ℤ × ℤ)
  | redraw
  | reset
deriving DecidableEq

/-- One event step of the engine. -/
def step (luck : ℤ → ℤ → ℚ) (s : GameState) : Event → GameState
  | Event.move di dj => movePlayer luck s di dj
  | Event.click c => (handleClick luck s c).1
  | Event.redraw => drawGrid luck s
  | Event.reset => resetGame luck s

/-- Run a sequence of events. -/
def run (luck : ℤ → ℤ → ℚ) (s : GameState) (es : List Event) : GameState :=
  es.foldl (step luck) s

/-- The startup state (lines 111, 386–387): player at the origin cell,
empty hand, empty store, no snapshot, followed by the initial `drawGrid`. -/
def initState (luck : ℤ → ℤ → ℚ) : GameState :=
  drawGrid luck { player := toCell ORIGIN_LAT ORIGIN_LNG
                , held := none
                , mem := fun _ => none
                , snapshot := none }

/-! ## Theorems -/

/-- A fixed concrete hash used for closed witness statements: every cell
hashes to `0.5`, so no token spawns. -/
def luckHalf : ℤ → ℤ → ℚ := fun _ _ => 1/2

/-- A second concrete hash: cell `(1, 1)` hashes to `0.05` (spawn value 1),
all other cells to `0.5`. -/
def luckOne : ℤ → ℤ → ℚ := fun i j => if i = 1 ∧ j = 1 then 1/20 else 1/2

/-- C4: `spawnValue` is a pure function of the cell coordinate: its result
is fully determined by the hash value `r = luck(i,j)` through the
cumulative bands `r<0.10→1, r<0.18→2, r<0.22→4, r<0.24→8, r<0.245→16`,
and none otherwise; every non-none result lies in `{1, 2, 4, 8, 16}`. -/
theorem spawnValue_bands (luck : ℤ → ℤ → ℚ) (i j : ℤ) :
    (∀ luck' : ℤ → ℤ → ℚ, ∀ i' j' : ℤ, luck i j = luck' i' j' →
      spawnValue luck i j = spawnValue luck' i' j') ∧
    (luck i j < 1/10 → spawnValue luck i j = some 1) ∧
    (1/10 ≤ luck i j → luck i j < 18/100 → spawnValue luck i j = some 2) ∧
    (18/100 ≤ luck i j → luck i j < 22/100 → spawnValue luck i j = some 4) ∧
    (22/100 ≤ luck i j → luck i j < 24/100 → spawnValue luck i j = some 8) ∧
    (24/100 ≤ luck i j → luck i j < 245/1000 → spawnValue luck i j = some 16) ∧
    (245/1000 ≤ luck i j → spawnValue luck i j = none) ∧
    (∀ v, spawnValue luck i j = some v →
      v = 1 ∨ v = 2 ∨ v = 4 ∨ v = 8 ∨ v = 16) := by
  refine ⟨?_, ?_, ?_, ?_, ?_, ?_, ?_, ?_⟩
  · intro luck' i' j' hr
    unfold spawnValue
    rw [hr]
  · intro h; unfold spawnValue; rw [if_pos h]
  · intro h0 h
    unfold spawnValue
    rw [if_neg (by linarith), if_pos h]
  · intro h0 h
    unfold spawnValue
    rw [if_neg (by linarith), if_neg (by linarith), if_pos h]
  · intro h0 h
    unfold spawnValue
    rw [if_neg (by linarith), if_neg (by linarith), if_neg (by linarith), if_pos h]
  · intro h0 h
    unfold spawnValue
    rw [if_neg (by linarith), if_neg (by linarith), if_neg (by linarith),
      if_neg (by linarith), if_pos h]
  · intro h
    unfold spawnValue
    rw [if_neg (by linarith), if_neg (by linarith), if_neg (by linarith),
      if_neg (by linarith), if_neg (by linarith)]
  · intro v hv
    unfold spawnValue at hv
    split_ifs at hv <;> simp_all

/-- C4 witness: at the concrete hash `luckOne`, cell `(1,1)` has hash `0.05`
in the first band and spawns value 1; cell `(0,0)` has hash `0.5` beyond
every band and spawns nothing. -/
theorem spawnValue_bands_witness :
    spawnValue luckOne 1 1 = some 1 ∧ spawnValue luckOne 0 0 = none :=
  ⟨(spawnValue_bands luckOne 1 1).2.1 (by norm_num [luckOne]),
    (spawnValue_bands luckOne 0 0).2.2.2.2.2.2.1 (by norm_num [luckOne])⟩

/-! ### Coordinate round-trip (C9) -/

/-- One axis of the floor computation: the bounds of cell index `i` contain
`x` exactly when flooring recovers `i` (forward direction). -/
theorem axis_floor_eq (x o : ℚ) (i : ℤ)
    (h1 : o + i * TILE_DEGREES ≤ x) (h2 : x < o + (i + 1) * TILE_DEGREES) :
    ⌊(x - o) / TILE_DEGREES⌋ = i := by
  have hT : (0:ℚ) < TILE_DEGREES := by norm_num [TILE_DEGREES]
  rw [Int.floor_eq_iff]
  constructor
  · rw [le_div_iff₀ hT]; linarith
  · rw [div_lt_iff₀ hT]; linarith

/-- One axis of the floor computation: `x` lies in the half-open band of
its own floor index. -/
theorem axis_floor_bounds (x o : ℚ) :
    o + (⌊(x - o) / TILE_DEGREES⌋ : ℤ) * TILE_DEGREES ≤ x ∧
    x < o + ((⌊(x - o) / TILE_DEGREES⌋ : ℤ) + 1) * TILE_DEGREES := by
  have hT : (0:ℚ) < TILE_DEGREES := by norm_num [TILE_DEGREES]
  have h1 : ((⌊(x - o) / TILE_DEGREES⌋ : ℤ) : ℚ) ≤ (x - o) / TILE_DEGREES :=
    Int.floor_le _
  have h2 : (x - o) / TILE_DEGREES < (⌊(x - o) / TILE_DEGREES⌋ : ℤ) + 1 :=
    Int.lt_floor_add_one _
  constructor
  · have := (le_div_iff₀ hT).mp h1
    linarith
  · have := (div_lt_iff₀ hT).mp h2
    push_cast at this ⊢
    linarith

/-- C9: for every position `p = (lat, lng)`, `toCell p` yields a cell whose
`fromCell` bounds contain `p` (half-open at the upper edge), and it is the
unique such cell. -/
theorem toCell_unique_bounds (lat lng : ℚ) :
    inBounds (toCell lat lng).1 (toCell lat lng).2 lat lng ∧
    ∀ i j : ℤ, inBounds i j lat lng → (i, j) = toCell lat lng := by
  constructor
  · have hlat := axis_floor_bounds lat ORIGIN_LAT
    have hlng := axis_floor_bounds lng ORIGIN_LNG
    refine ⟨?_, ?_, ?_, ?_⟩
    · simpa [inBounds, fromCell, toCell] using hlat.1
    · simpa [inBounds, fromCell, toCell] using hlat.2
    · simpa [inBounds, fromCell, toCell] using hlng.1
    · simpa [inBounds, fromCell, toCell] using hlng.2
  · intro i j hin
    obtain ⟨ha, hb, hc, hd⟩ := hin
    simp only [fromCell] at ha hb hc hd
    have hi : ⌊(lat - ORIGIN_LAT) / TILE_DEGREES⌋ = i := axis_floor_eq lat ORIGIN_LAT i ha hb
    have hj : ⌊(lng - ORIGIN_LNG) / TILE_DEGREES⌋ = j := axis_floor_eq lng ORIGIN_LNG j hc hd
    simp [toCell, hi, hj]

/-- C9 witness: the position `0.00015°` north and `0.00005°` east of the
origin lies in the bounds of cell `(1, 0)`, and `toCell` recovers exactly
that cell. -/
theorem toCell_unique_bounds_witness :
    ((1 : ℤ), (0 : ℤ)) = toCell (ORIGIN_LAT + 3/20000) (ORIGIN_LNG + 1/20000) :=
  (toCell_unique_bounds (ORIGIN_LAT + 3/20000) (ORIGIN_LNG + 1/20000)).2 1 0
    (by norm_num [inBounds, fromCell, ORIGIN_LAT, ORIGIN_LNG, TILE_DEGREES])

/-! ### Click state machine: helper lemmas -/

/-- `drawGrid` never changes the collected flag of any cell: existing
entries are kept verbatim, fresh entries are materialized uncollected. -/
lemma isCollected_drawGrid (luck : ℤ → ℤ → ℚ) (s : GameState) (c : ℤ × ℤ) :
    isCollected (drawGrid luck s).mem c = isCollected s.mem c := by
  unfold isCollected drawGrid
  cases hm : s.mem c with
  | some st => simp [hm]
  | none =>
      simp only [hm]
      by_cases hd : distance s.player c ≤ NEIGHBORHOOD_SIZE <;> simp [hd]

/-- A collected cell renders no token layer. -/
lemma renderedValue_of_collected (luck : ℤ → ℤ → ℚ) (s : GameState) (c : ℤ × ℤ)
    (h : isCollected s.mem c = true) : renderedValue luck s c = none := by
  unfold isCollected at h
  unfold renderedValue resolveCell
  cases hm : s.mem c with
  | none => rw [hm] at h; simp at h
  | some st =>
      rw [hm] at h
      simp only [] at h
      simp [hm, h]

/-- An in-range, uncollected cell with a token value renders that value. -/
lemma renderedValue_eq_some (luck : ℤ → ℤ → ℚ) (s : GameState) (c : ℤ × ℤ) (w : ℕ)
    (hrange : distance s.player c ≤ INTERACTION_RANGE)
    (hcol : (resolveCell luck s.mem c).collected = false)
    (hval : (resolveCell luck s.mem c).value = some w) :
    renderedValue luck s c = some w := by
  have hnb : ¬ distance s.player c > NEIGHBORHOOD_SIZE := by
    have h3 : INTERACTION_RANGE ≤ NEIGHBORHOOD_SIZE := by
      norm_num [INTERACTION_RANGE, NEIGHBORHOOD_SIZE]
    exact not_lt.mpr (le_trans hrange h3)
  unfold renderedValue
  rw [if_neg hnb, if_neg (by simp [hcol]), hval]

/-- The target cell of `collectAt` is recorded as collected. -/
lemma isCollected_collectAt_self (luck : ℤ → ℤ → ℚ) (s : GameState) (c : ℤ × ℤ)
    (w nh : ℕ) : isCollected (collectAt luck s c w nh).mem c = true := by
  unfold collectAt
  rw [isCollected_drawGrid]
  unfold isCollected
  simp

/-- `collectAt` only touches the clicked cell's collected flag: every other
collected cell stays collected. -/
lemma isCollected_collectAt_mono (luck : ℤ → ℤ → ℚ) (s : GameState)
    (c c' : ℤ × ℤ) (w nh : ℕ) (h : isCollected s.mem c = true) :
    isCollected (collectAt luck s c' w nh).mem c = true := by
  unfold collectAt
  rw [isCollected_drawGrid]
  unfold isCollected at h ⊢
  by_cases hc : c = c'
  · simp [hc]
  · simpa [hc] using h

/-- `collectAt` keeps the player cell. -/
lemma collectAt_player (luck : ℤ → ℤ → ℚ) (s : GameState) (c : ℤ × ℤ)
    (w nh : ℕ) : (collectAt luck s c w nh).player = s.player := rfl

/-- `collectAt` sets the held token to the new value. -/
lemma collectAt_held (luck : ℤ → ℤ → ℚ) (s : GameState) (c : ℤ × ℤ)
    (w nh : ℕ) : (collectAt luck s c w nh).held = some nh := rfl

/-! ### C1, C2, C3 -/

/-- C1: holding `v`, an in-range click on an uncollected cell of value `w`
merges into `Holding(2v)` and marks the cell collected when `w = v`, and
leaves the whole state unchanged with a `ValueMismatch` signal when
`w ≠ v`. -/
theorem handleClick_merge (luck : ℤ → ℤ → ℚ) (s : GameState) (c : ℤ × ℤ)
    (v w : ℕ)
    (hheld : s.held = some v)
    (hrange : distance s.player c ≤ INTERACTION_RANGE)
    (hcol : (resolveCell luck s.mem c).collected = false)
    (hval : (resolveCell luck s.mem c).value = some w) :
    (w = v →
      (handleClick luck s c).1.held = some (2 * v) ∧
      isCollected (handleClick luck s c).1.mem c = true ∧
      (handleClick luck s c).1.player = s.player ∧
      (handleClick luck s c).2 = Signal.merged) ∧
    (w ≠ v → handleClick luck s c = (s, Signal.valueMismatch)) := by
  have hren := renderedValue_eq_some luck s c w hrange hcol hval
  have hnr : ¬ distance s.player c > INTERACTION_RANGE := not_lt.mpr hrange
  have key : handleClick luck s c =
      (if v = w then (collectAt luck s c w (2 * v), Signal.merged)
       else (s, Signal.valueMismatch)) := by
    unfold handleClick
    rw [hren]
    simp only
    rw [if_neg hnr, hheld]
  constructor
  · intro hwv
    subst hwv
    rw [key, if_pos rfl]
    exact ⟨collectAt_held luck s c w (2 * w),
      isCollected_collectAt_self luck s c w (2 * w),
      collectAt_player luck s c w (2 * w), rfl⟩
  · intro hwv
    rw [key, if_neg (fun h => hwv h.symm)]

/-- Concrete state for the C1 merge witness: player at the origin holding
4, cell `(1,1)` stores an uncollected 4, cell `(2,2)` an uncollected 2. -/
def sMerge : GameState :=
  { player := (0, 0)
  , held := some 4
  , mem := fun c =>
      if c = (1, 1) then some ⟨some 4, false⟩
      else if c = (2, 2) then some ⟨some 2, false⟩
      else none
  , snapshot := none }

/-- C1 witness: merging on the equal-valued cell `(1,1)` doubles the hand
to 8 and collects the cell; clicking the 2-valued cell `(2,2)` instead
leaves the state unchanged with a `ValueMismatch`. -/
theorem handleClick_merge_witness :
    (handleClick luckHalf sMerge (1, 1)).1.held = some 8 ∧
    isCollected (handleClick luckHalf sMerge (1, 1)).1.mem (1, 1) = true ∧
    (handleClick luckHalf sMerge (1, 1)).2 = Signal.merged ∧
    handleClick luckHalf sMerge (2, 2) = (sMerge, Signal.valueMismatch) := by
  have h1 := (handleClick_merge luckHalf sMerge (1, 1) 4 4 rfl (by decide)
    (by decide) (by decide)).1 rfl
  have h2 := (handleClick_merge luckHalf sMerge (2, 2) 4 2 rfl (by decide)
    (by decide) (by decide)).2 (by decide)
  exact ⟨h1.1, h1.2.1, h1.2.2.2, h2⟩

/-- C2: with an empty hand, an in-range click on an uncollected cell of
value `t` picks it up (`Holding(t)`) and marks the cell collected; any
later click on a collected cell — whatever the held state — is rejected
with an `EmptyCell` signal and changes nothing. -/
theorem handleClick_pickup_then_empty (luck : ℤ → ℤ → ℚ) (s : GameState)
    (c : ℤ × ℤ) (t : ℕ)
    (hheld : s.held = none)
    (hrange : distance s.player c ≤ INTERACTION_RANGE)
    (hcol : (resolveCell luck s.mem c).collected = false)
    (hval : (resolveCell luck s.mem c).value = some t) :
    (handleClick luck s c).2 = Signal.picked ∧
    (handleClick luck s c).1.held = some t ∧
    isCollected (handleClick luck s c).1.mem c = true ∧
    ∀ s' : GameState, isCollected s'.mem c = true →
      handleClick luck s' c = (s', Signal.emptyCell) := by
  have hren := renderedValue_eq_some luck s c t hrange hcol hval
  have hnr : ¬ distance s.player c > INTERACTION_RANGE := not_lt.mpr hrange
  have key : handleClick luck s c = (collectAt luck s c t t, Signal.picked) := by
    unfold handleClick
    rw [hren]
    simp only
    rw [if_neg hnr, hheld]
  refine ⟨?_, ?_, ?_, ?_⟩
  · rw [key]
  · rw [key]
    exact collectAt_held luck s c t t
  · rw [key]
    exact isCollected_collectAt_self luck s c t t
  · intro s' h'
    unfold handleClick
    rw [renderedValue_of_collected luck s' c h']

/-- Concrete state for the C2 witness: empty hand, uncollected 4 at
`(1,1)`. -/
def sPick : GameState :=
  { player := (0, 0)
  , held := none
  , mem := fun c => if c = (1, 1) then some ⟨some 4, false⟩ else none
  , snapshot := none }

/-- C2 witness: the first click on `(1,1)` picks up the 4 and collects the
cell, and the second click on the same cell is rejected as an empty cell
with no state change. -/
theorem handleClick_pickup_then_empty_witness :
    (handleClick luckHalf sPick (1, 1)).2 = Signal.picked ∧
    (handleClick luckHalf sPick (1, 1)).1.held = some 4 ∧
    handleClick luckHalf (handleClick luckHalf sPick (1, 1)).1 (1, 1) =
      ((handleClick luckHalf sPick (1, 1)).1, Signal.emptyCell) := by
  have h := handleClick_pickup_then_empty luckHalf sPick (1, 1) 4 rfl
    (by decide) (by decide) (by decide)
  exact ⟨h.1, h.2.1, h.2.2.2 (handleClick luckHalf sPick (1, 1)).1 h.2.2.1⟩

/-- Concrete state refuting C3 as stated: the cell `(4,4)` is collected and
lies beyond the interaction range of the player at the origin. -/
def sFar : GameState :=
  { player := (0, 0)
  , held := none
  , mem := fun c =>
      if c = (4, 4) then some ⟨some 1, true⟩
      else if c = (5, 5) then some ⟨some 2, false⟩
      else none
  , snapshot := none }

/-- C3 counterexample: clicking the collected cell `(4,4)` at Chebyshev
distance 4 > 3 does not produce the out-of-range signal — the cell has no
token layer, so the click is the silent empty-cell rejection. -/
theorem rangeGate_signal_cex :
    distance sFar.player (4, 4) > INTERACTION_RANGE ∧
    (handleClick luckHalf sFar (4, 4)).2 ≠ Signal.outOfRange ∧
    (handleClick luckHalf sFar (4, 4)).2 = Signal.emptyCell := by
  have h : handleClick luckHalf sFar (4, 4) = (sFar, Signal.emptyCell) := by
    unfold handleClick
    rw [renderedValue_of_collected luckHalf sFar (4, 4) (by decide)]
  exact ⟨by decide, by rw [h]; decide, by rw [h]⟩

/-- C3 (amended): any click beyond the interaction range leaves the state
(held token, player cell, cell store, snapshot) unchanged; the out-of-range
signal is reported exactly when the target cell renders a token layer,
otherwise the click is the silent empty-cell rejection. -/
theorem rangeGate_no_change (luck : ℤ → ℤ → ℚ) (s : GameState) (c : ℤ × ℤ)
    (h : distance s.player c > INTERACTION_RANGE) :
    (handleClick luck s c).1 = s ∧
    ((handleClick luck s c).2 = Signal.outOfRange ∨
      (handleClick luck s c).2 = Signal.emptyCell) ∧
    ((handleClick luck s c).2 = Signal.outOfRange ↔
      renderedValue luck s c ≠ none) := by
  unfold handleClick
  rcases Option.eq_none_or_eq_some (renderedValue luck s c) with hr | ⟨w, hr⟩
  · rw [hr]
    simp
  · rw [hr]
    simp only
    rw [if_pos h]
    simp

/-- C3 amended-claim witness: the uncollected 2-valued cell `(5,5)` at
distance 5 from the player is rejected with the out-of-range signal and
the state is unchanged. -/
theorem rangeGate_no_change_witness :
    (handleClick luckHalf sFar (5, 5)).1 = sFar ∧
    (handleClick luckHalf sFar (5, 5)).2 = Signal.outOfRange := by
  have h := rangeGate_no_change luckHalf sFar (5, 5) (by decide)
  exact ⟨h.1, h.2.2.mpr (by decide)⟩

/-! ### Collection monotonicity (C5) -/

/-- A single non-reset event never clears a collected flag. -/
lemma isCollected_step (luck : ℤ → ℤ → ℚ) (s : GameState) (c : ℤ × ℤ)
    (e : Event) (he : e ≠ Event.reset) (h : isCollected s.mem c = true) :
    isCollected (step luck s e).mem c = true := by
  cases e with
  | move di dj =>
      unfold step movePlayer
      rw [isCollected_drawGrid]
      exact h
  | redraw =>
      unfold step
      rw [isCollected_drawGrid]
      exact h
  | reset => exact absurd rfl he
  | click c' =>
      have hstep : step luck s (Event.click c') = (handleClick luck s c').1 := rfl
      rw [hstep]
      unfold handleClick
      rcases Option.eq_none_or_eq_some (renderedValue luck s c') with hr | ⟨w, hr⟩
      · rw [hr]; exact h
      · rw [hr]
        simp only
        by_cases hd : distance s.player c' > INTERACTION_RANGE
        · rw [if_pos hd]; exact h
        · rw [if_neg hd]
          rcases Option.eq_none_or_eq_some s.held with hh | ⟨v, hh⟩
          · rw [hh]
            simp only
            exact isCollected_collectAt_mono luck s c c' w w h
          · rw [hh]
            simp only
            by_cases hvw : v = w
            · rw [if_pos hvw]
              exact isCollected_collectAt_mono luck s c c' w (2 * v) h
            · rw [if_neg hvw]; exact h

/-- Collected flags survive any reset-free event sequence. -/
lemma isCollected_run (luck : ℤ → ℤ → ℚ) (c : ℤ × ℤ) :
    ∀ (es : List Event) (s : GameState), Event.reset ∉ es →
      isCollected s.mem c = true → isCollected (run luck s es).mem c = true := by
  intro es
  induction es with
  | nil => intro s _ h; exact h
  | cons e es ih =>
      intro s hes h
      exact ih (step luck s e)
        (fun hm => hes (List.mem_cons_of_mem e hm))
        (isCollected_step luck s c e
          (fun hh => hes (by rw [hh]; exact List.mem_cons_self _ _)) h)

/-- A store lookup of a collected cell reports it collected. -/
lemma lookup_collected (luck : ℤ → ℤ → ℚ) (mem : Mem) (c : ℤ × ℤ)
    (h : isCollected mem c = true) :
    (resolveCell luck mem c).collected = true := by
  unfold isCollected at h
  unfold resolveCell
  cases hm : mem c with
  | none => rw [hm] at h; simp at h
  | some st =>
      rw [hm] at h
      simp only [] at h
      simpa using h

/-- C5: once a cell is recorded collected, every later reset-free sequence
of moves, clicks and redraws keeps it collected, and every lookup of the
cell reports `collected = true`. -/
theorem collected_monotone (luck : ℤ → ℤ → ℚ) (s : GameState) (c : ℤ × ℤ)
    (es : List Event) (hes : Event.reset ∉ es)
    (h : isCollected s.mem c = true) :
    isCollected (run luck s es).mem c = true ∧
    (resolveCell luck (run luck s es).mem c).collected = true := by
  have key := isCollected_run luck c es s hes h
  exact ⟨key, lookup_collected luck (run luck s es).mem c key⟩

/-- Concrete state for the C5 witness: cell `(1,1)` already collected. -/
def sDone : GameState :=
  { player := (0, 0)
  , held := some 4
  , mem := fun c => if c = (1, 1) then some ⟨some 4, true⟩ else none
  , snapshot := none }

/-- C5 witness: after a move, a redraw and two clicks (none a reset), cell
`(1,1)` is still recorded and looked up as collected. -/
theorem collected_monotone_witness :
    isCollected (run luckHalf sDone
      [Event.move 1 0, Event.redraw, Event.click (2, 2), Event.click (1, 1)]).mem
      (1, 1) = true ∧
    (resolveCell luckHalf (run luckHalf sDone
      [Event.move 1 0, Event.redraw, Event.click (2, 2), Event.click (1, 1)]).mem
      (1, 1)).collected = true :=
  collected_monotone luckHalf sDone (1, 1)
    [Event.move 1 0, Event.redraw, Event.click (2, 2), Event.click (1, 1)]
    (by decide) (by decide)

/-! ### Reset restores the initial world (C6) -/

/-- Resolving any cell of a freshly cleared, redrawn store yields exactly
the spawn value, uncollected. -/
lemma resolveCell_drawGrid_empty (luck : ℤ → ℤ → ℚ) (p : ℤ × ℤ)
    (held : Option ℕ) (snap : Option Mem) (c : ℤ × ℤ) :
    resolveCell luck
      (drawGrid luck ⟨p, held, fun _ => none, snap⟩).mem c =
      ⟨spawnValue luck c.1 c.2, false⟩ := by
  unfold drawGrid resolveCell
  simp only
  by_cases hd : distance p c ≤ NEIGHBORHOOD_SIZE <;> simp [hd]

/-- C6: `reset()` clears the held token and the persisted snapshot, and a
lookup of any cell afterwards reproduces exactly the original spawn value
of that cell — the same state a lookup at startup yields. -/
theorem reset_restores_spawn (luck : ℤ → ℤ → ℚ) (s : GameState) (c : ℤ × ℤ) :
    (resetGame luck s).held = none ∧
    (resetGame luck s).snapshot = none ∧
    resolveCell luck (resetGame luck s).mem c =
      ⟨spawnValue luck c.1 c.2, false⟩ ∧
    resolveCell luck (resetGame luck s).mem c =
      resolveCell luck (initState luck).mem c := by
  have h1 : resolveCell luck (resetGame luck s).mem c =
      ⟨spawnValue luck c.1 c.2, false⟩ :=
    resolveCell_drawGrid_empty luck s.player none none c
  have h2 : resolveCell luck (initState luck).mem c =
      ⟨spawnValue luck c.1 c.2, false⟩ :=
    resolveCell_drawGrid_empty luck (toCell ORIGIN_LAT ORIGIN_LNG) none none c
  exact ⟨rfl, rfl, h1, h1.trans h2.symm⟩

/-! ### Held-token monotonicity (C10) -/

/-- A single non-reset event never empties the hand or decreases its
value. -/
lemma held_step_mono (luck : ℤ → ℤ → ℚ) (s : GameState) (e : Event)
    (he : e ≠ Event.reset) (v : ℕ) (hv : s.held = some v) :
    ∃ v', (step luck s e).held = some v' ∧ v ≤ v' := by
  cases e with
  | move di dj => exact ⟨v, hv, le_rfl⟩
  | redraw => exact ⟨v, hv, le_rfl⟩
  | reset => exact absurd rfl he
  | click c' =>
      have hstep : step luck s (Event.click c') = (handleClick luck s c').1 := rfl
      rw [hstep]
      unfold handleClick
      rcases Option.eq_none_or_eq_some (renderedValue luck s c') with hr | ⟨w, hr⟩
      · rw [hr]; exact ⟨v, hv, le_rfl⟩
      · rw [hr]
        simp only
        by_cases hd : distance s.player c' > INTERACTION_RANGE
        · rw [if_pos hd]; exact ⟨v, hv, le_rfl⟩
        · rw [if_neg hd, hv]
          simp only
          by_cases hvw : v = w
          · rw [if_pos hvw]
            exact ⟨2 * v, rfl, by omega⟩
          · rw [if_neg hvw]; exact ⟨v, hv, le_rfl⟩

/-- C10: over any reset-free event sequence, a non-empty hand stays
non-empty and its value never decreases. -/
theorem heldToken_monotone (luck : ℤ → ℤ → ℚ) :
    ∀ (es : List Event) (s : GameState) (v : ℕ), Event.reset ∉ es →
      s.held = some v →
      ∃ v', (run luck s es).held = some v' ∧ v ≤ v' := by
  intro es
  induction es with
  | nil => intro s v _ hv; exact ⟨v, hv, le_rfl⟩
  | cons e es ih =>
      intro s v hes hv
      obtain ⟨v1, hv1, hle1⟩ := held_step_mono luck s e
        (fun hh => hes (by rw [hh]; exact List.mem_cons_self _ _)) v hv
      obtain ⟨v2, hv2, hle2⟩ := ih (step luck s e) v1
        (fun hm => hes (List.mem_cons_of_mem e hm)) hv1
      exact ⟨v2, hv2, le_trans hle1 hle2⟩

/-- C10 witness: starting from a hand holding 4, a merge click, a move and
a far click leave the hand holding at least 4. -/
theorem heldToken_monotone_witness :
    ∃ v', (run luckHalf sMerge
      [Event.click (1, 1), Event.move 1 0, Event.click (5, 5)]).held = some v' ∧
      4 ≤ v' :=
  heldToken_monotone luckHalf
    [Event.click (1, 1), Event.move 1 0, Event.click (5, 5)]
    sMerge 4 (by decide) rfl

/-! ### Movement-system facade (C7)

`MovementSystem.setController` (lines 28–37): stop the old controller if
one exists, then assign and start the new one.  Controllers are identified
by numbers; the calls the facade makes are recorded as a trace.  A
controller's movement handlers are attached by its `start` and detached by
its `stop` (`ButtonMovementController`, lines 56–92), so an emission moves
the player exactly when its emitter is currently attached. -/

/-- A `start`/`stop` call made by the facade on a controller. -/
inductive CtrlCall where
  | stop (id : ℕ)
  | start (id : ℕ)
deriving DecidableEq, Repr

/-- `setController`: the new current controller and the calls made, in
order. -/
def setController (current : Option ℕ) (n : ℕ) : Option ℕ × List CtrlCall :=
  match current with
  | some o => (some n, [CtrlCall.stop o, CtrlCall.start n])
  | none => (some n, [CtrlCall.start n])

/-- Run a sequence of controller switches, accumulating the call trace. -/
def runSwitches : Option ℕ → List ℕ → Option ℕ × List CtrlCall
  | s, [] => (s, [])
  | s, n :: ns =>
      ((runSwitches (setController s n).1 ns).1,
        (setController s n).2 ++ (runSwitches (setController s n).1 ns).2)

/-- The set of controllers whose handlers are attached after a call trace:
`start` attaches, `stop` detaches. -/
def applyCalls (a : List ℕ) : List CtrlCall → List ℕ
  | [] => a
  | CtrlCall.start i :: rest => applyCalls (if i ∈ a then a else i :: a) rest
  | CtrlCall.stop i :: rest => applyCalls (a.filter (fun x => x != i)) rest

/-- A delta emitted by controller `i` moves the player exactly when `i`'s
handlers are attached (detached listeners never fire). -/
def applyEmit (attached : List ℕ) (i : ℕ) (d : ℤ × ℤ) (p : ℤ × ℤ) : ℤ × ℤ :=
  if i ∈ attached then (p.1 + d.1, p.2 + d.2) else p

/-- The attached set of the singleton current controller. -/
def ofCtrl : Option ℕ → List ℕ
  | none => []
  | some i => [i]

lemma applyCalls_append (a : List ℕ) (cs cs' : List CtrlCall) :
    applyCalls a (cs ++ cs') = applyCalls (applyCalls a cs) cs' := by
  induction cs generalizing a with
  | nil => rfl
  | cons c rest ih =>
      cases c with
      | stop i => simpa [applyCalls] using ih _
      | start i => simpa [applyCalls] using ih _

/-- Installing controller `n` leaves exactly `n` attached, whatever was
attached before consistent with the current controller. -/
lemma applyCalls_setController (s : Option ℕ) (n : ℕ) :
    applyCalls (ofCtrl s) (setController s n).2 = [n] := by
  cases s with
  | none => simp [setController, applyCalls, ofCtrl]
  | some o => simp [setController, applyCalls, ofCtrl]

/-- After any switch sequence, the attached set is exactly the singleton of
the facade's current controller. -/
lemma runSwitches_attached :
    ∀ (ids : List ℕ) (s : Option ℕ),
      applyCalls (ofCtrl s) (runSwitches s ids).2 =
        ofCtrl (runSwitches s ids).1 := by
  intro ids
  induction ids with
  | nil => intro s; rfl
  | cons n ns ih =>
      intro s
      have hdef : runSwitches s (n :: ns) =
          ((runSwitches (setController s n).1 ns).1,
            (setController s n).2 ++ (runSwitches (setController s n).1 ns).2) := rfl
      have hfst : (setController s n).1 = some n := by
        cases s <;> rfl
      rw [hdef, applyCalls_append, applyCalls_setController, hfst]
      have := ih (some n)
      simpa [ofCtrl] using this

/-- C7: every switch on an active controller emits `stop` on the old one
before `start` on the new one; after any sequence of switches, the attached
set is exactly the current controller — so at most one controller emits,
and an emission by any non-current (old) controller never moves the
player cell. -/
theorem controller_exclusivity (ids : List ℕ) (i : ℕ) :
    (∀ o n, setController (some o) n =
      (some n, [CtrlCall.stop o, CtrlCall.start n])) ∧
    (i ∈ applyCalls [] (runSwitches none ids).2 ↔
      (runSwitches none ids).1 = some i) ∧
    (∀ p d : ℤ × ℤ, (runSwitches none ids).1 ≠ some i →
      applyEmit (applyCalls [] (runSwitches none ids).2) i d p = p) := by
  have hmain : applyCalls [] (runSwitches none ids).2 =
      ofCtrl (runSwitches none ids).1 := runSwitches_attached ids none
  refine ⟨fun o n => rfl, ?_, ?_⟩
  · rw [hmain]
    rcases Option.eq_none_or_eq_some (runSwitches none ids).1 with hc | ⟨a, hc⟩ <;>
      rw [hc] <;> simp [ofCtrl, eq_comm]
  · intro p d hne
    have hnm : i ∉ ofCtrl (runSwitches none ids).1 := by
      rcases Option.eq_none_or_eq_some (runSwitches none ids).1 with hc | ⟨a, hc⟩
      · rw [hc]; simp [ofCtrl]
      · rw [hc]
        simp only [ofCtrl, List.mem_singleton]
        intro hia
        exact hne (by rw [hc, hia])
    unfold applyEmit
    rw [hmain, if_neg hnm]

/-- C7 witness: after switching from controller 1 to controller 2 the trace
is `start 1, stop 1, start 2`, and an emission by the stopped controller 1
leaves the player cell unchanged. -/
theorem controller_exclusivity_witness :
    applyEmit (applyCalls [] (runSwitches none [1, 2]).2) 1 (1, 0) (0, 0) = (0, 0) ∧
    (runSwitches none [1, 2]).2 =
      [CtrlCall.start 1, CtrlCall.stop 1, CtrlCall.start 2] := by
  refine ⟨(controller_exclusivity [1, 2] 1).2.2 (0, 0) (1, 0) (by decide), by decide⟩

/-! ### Geolocation movement controller (C8) -/

/-- The mutable fields of `GeolocationMovementController` (lines 171–228):
the subscription handle and the stored baseline GPS reading. -/
structure GeoState where
  watchId : Option ℕ
  lastLat : Option ℚ
  lastLng : Option ℚ
deriving DecidableEq, Repr

/-- `stop()` (lines 194–199): cancel the watch if one is active.  The
baseline fields are not touched. -/
def geoStop (g : GeoState) : GeoState :=
  match g.watchId with
  | some _ => { g with watchId := none }
  | none => g

/-- `start()` (lines 176–192): subscribe, storing the fresh watch id
(capability assumed available). -/
def geoStart (g : GeoState) (fresh : ℕ) : GeoState :=
  { g with watchId := some fresh }

/-- `handlePosition(pos)` (lines 201–227): with no stored baseline, store
the reading and emit nothing; otherwise emit the cell-coordinate delta when
it is nonzero and update the baseline. -/
def handlePosition (g : GeoState) (lat lng : ℚ) : GeoState × Option (ℤ × ℤ) :=
  match g.lastLat, g.lastLng with
  | some la, some ln =>
      ({ g with lastLat := some lat, lastLng := some lng },
        if (toCell lat lng).1 - (toCell la ln).1 ≠ 0 ∨
            (toCell lat lng).2 - (toCell la ln).2 ≠ 0 then
          some ((toCell lat lng).1 - (toCell la ln).1,
            (toCell lat lng).2 - (toCell la ln).2)
        else none)
  | _, _ => ({ g with lastLat := some lat, lastLng := some lng }, none)

/-- A geolocation controller state with a stored baseline at the world
origin and an active watch. -/
def gBase : GeoState :=
  { watchId := some 0, lastLat := some ORIGIN_LAT, lastLng := some ORIGIN_LNG }

/-- C8 counterexample: `stop()` does not clear the stored baseline, and
after a subsequent `start()` the first position update is not a
calibration read — it is compared against the stale baseline and emits a
delta. -/
theorem geoStop_keeps_baseline_cex :
    (geoStop gBase).watchId = none ∧
    (geoStop gBase).lastLat ≠ none ∧
    (handlePosition (geoStart (geoStop gBase) 1)
      (ORIGIN_LAT + 1/1000) ORIGIN_LNG).2 = some (10, 0) := by
  refine ⟨rfl, by decide, ?_⟩
  have h1 : toCell (ORIGIN_LAT + 1/1000) ORIGIN_LNG = (10, 0) := by
    unfold toCell ORIGIN_LAT ORIGIN_LNG TILE_DEGREES
    norm_num
  have h2 : toCell ORIGIN_LAT ORIGIN_LNG = (0, 0) := by
    unfold toCell ORIGIN_LAT ORIGIN_LNG TILE_DEGREES
    norm_num
  show (handlePosition
      { watchId := some 1, lastLat := some ORIGIN_LAT, lastLng := some ORIGIN_LNG }
      (ORIGIN_LAT + 1/1000) ORIGIN_LNG).2 = some (10, 0)
  unfold handlePosition
  simp only [h1, h2]
  norm_num

/-- C8 (amended): `stop()` cancels the subscription but retains the stored
baseline; the first position update after a restart is a calibration read
(storing the baseline, emitting nothing) only when no baseline is stored. -/
theorem geoStop_spec (g : GeoState) :
    (geoStop g).watchId = none ∧
    (geoStop g).lastLat = g.lastLat ∧
    (geoStop g).lastLng = g.lastLng ∧
    (∀ (k : ℕ) (lat lng : ℚ), g.lastLat = none ∨ g.lastLng = none →
      handlePosition (geoStart (geoStop g) k) lat lng =
        ({ watchId := some k, lastLat := some lat, lastLng := some lng }, none)) := by
  have hstop : geoStop g =
      { watchId := none, lastLat := g.lastLat, lastLng := g.lastLng } := by
    unfold geoStop
    rcases Option.eq_none_or_eq_some g.watchId with hw | ⟨w, hw⟩ <;> rw [hw]
    · cases g
      simp_all
  refine ⟨by rw [hstop], by rw [hstop], by rw [hstop], ?_⟩
  intro k lat lng hbase
  rw [hstop]
  rcases hbase with hb | hb
  · rw [show geoStart
        { watchId := none, lastLat := g.lastLat, lastLng := g.lastLng } k =
        { watchId := some k, lastLat := g.lastLat, lastLng := g.lastLng } from rfl,
      hb]
    rfl
  · rcases Option.eq_none_or_eq_some g.lastLat with hla | ⟨la, hla⟩ <;>
      (rw [show geoStart
          { watchId := none, lastLat := g.lastLat, lastLng := g.lastLng } k =
          { watchId := some k, lastLat := g.lastLat, lastLng := g.lastLng } from rfl,
        hla, hb]; rfl)

/-- C8 amended-claim witness: on a controller with no baseline, after
`stop` then `start`, the first position update stores the reading and
emits nothing. -/
theorem geoStop_spec_witness :
    (geoStop ⟨some 3, none, none⟩).watchId = none ∧
    handlePosition (geoStart (geoStop ⟨some 3, none, none⟩) 7) ORIGIN_LAT ORIGIN_LNG =
      ({ watchId := some 7, lastLat := some ORIGIN_LAT, lastLng := some ORIGIN_LNG },
        none) := by
  have h := geoStop_spec ⟨some 3, none, none⟩
  exact ⟨h.1, h.2.2.2 7 ORIGIN_LAT ORIGIN_LNG (Or.inl rfl)⟩

end WorldOfBits
